import Mathlib

/-!
Verification development for the anyfactor SEC-filing feature-extraction backend.

Shallow embedding conventions:
* filing text is `List Char`; Python floats are modelled as exact rationals `ℚ`
  (every value exercised here is integral, hence exactly representable);
* external collaborators (the language-model client, ticker resolver, filing
  lister, document fetcher, text normalizer) are oracle function parameters;
* Python dictionaries with a fixed key set are modelled as structures or small
  inductive types; a fallible Python operation is `Option`/`Except`.
-/

namespace Anyfactor

/-! ### ChunkPlanner — backend/llm.py, `_extract_numeric_iterative` lines 74-84 -/

/-- Chunk size constant from backend/llm.py line 11 (`CHUNK_SIZE = 40000`). -/
def CHUNK_SIZE : Nat := 40000

/-- Number of chunks produced for a text of the given length: the length of
`range(0, len(filing_text), CHUNK_SIZE)`, i.e. the ceiling of `len / CHUNK_SIZE`. -/
def numChunks (len : Nat) : Nat := (len + (CHUNK_SIZE - 1)) / CHUNK_SIZE

/-- `chunks = [filing_text[i:i+CHUNK_SIZE] for i in range(0, len(filing_text), CHUNK_SIZE)]`
(backend/llm.py line 74): the k-th chunk is the slice starting at `k * CHUNK_SIZE`. -/
def chunksOf (s : List Char) : List (List Char) :=
  (List.range (numChunks s.length)).map (fun k => (s.drop (k * CHUNK_SIZE)).take CHUNK_SIZE)

/-- The chunk priority order (backend/llm.py lines 78-84):
more than 4 chunks: `[2,3,4,1,5,6,7,8,9] + list(range(10, num_chunks))`;
2 to 4 chunks: `list(range(1, num_chunks)) + [0]`; otherwise `[0]`. -/
def priorityOrder (n : Nat) : List Nat :=
  if 4 < n then [2, 3, 4, 1, 5, 6, 7, 8, 9] ++ List.range' 10 (n - 10)
  else if 1 < n then List.range' 1 (n - 1) ++ [0]
  else [0]

/-- The priority order after the in-loop guard `if chunk_idx >= num_chunks: continue`
(backend/llm.py lines 89-90): only indices below `n` survive. -/
def filteredOrder (n : Nat) : List Nat :=
  (priorityOrder n).filter (fun i => decide (i < n))

/-! ### Numeric extraction results — the two dict shapes of `_parse_numeric_response` -/

/-- The two result-dictionary shapes of the numeric path:
`{"quarterly": q}` for a 10-Q and `{"annual": a, "quarterly": q}` for a 10-K
(backend/llm.py lines 246 and 248-251, 107-110). -/
inductive NumResult
  | q10 (quarterly : Option ℚ)
  | k10 (annual : Option ℚ) (quarterly : Option ℚ)
deriving DecidableEq

/-- `result.get("annual")`: absent key yields `none`. -/
def NumResult.getAnnual : NumResult → Option ℚ
  | .q10 _ => none
  | .k10 a _ => a

/-- `result.get("quarterly")`. -/
def NumResult.getQuarterly : NumResult → Option ℚ
  | .q10 q => q
  | .k10 _ q => q

/-- The stop condition of the chunk loop (backend/llm.py lines 96-103):
for a 10-Q, `result.get("quarterly") is not None`; otherwise (the `else:  # 10-K`
branch) `result.get("annual") is not None or result.get("quarterly") is not None`. -/
def foundIn (form : String) (d : NumResult) : Bool :=
  if form = "10-Q" then d.getQuarterly.isSome
  else d.getAnnual.isSome || d.getQuarterly.isSome

/-- The chunk loop of `_extract_numeric_iterative` (backend/llm.py lines 88-103),
with the per-chunk extraction `_extract_numeric_from_chunk` (a model call) as the
oracle `g`. Besides the loop's outcome it returns the list of chunk indices that
were actually extracted from (in order), so that the search behaviour itself is
part of the model: `chunks[chunk_idx]` is read exactly for the indices in that
list. Indexing is modelled totally with `getD`; the guard keeps it in range. -/
def runSearch (chunks : List (List Char)) (form : String) (g : List Char → NumResult) :
    List Nat → List Nat × Option NumResult
  | [] => ([], none)
  | i :: rest =>
    if chunks.length ≤ i then runSearch chunks form g rest
    else
      let d := g (chunks.getD i [])
      if foundIn form d then ([i], some d)
      else
        let pr := runSearch chunks form g rest
        (i :: pr.1, pr.2)

/-- `_extract_numeric_iterative` (backend/llm.py lines 71-110): chunk the text,
search the priority order, return the first chunk result that satisfies the stop
condition, else the all-null dictionary (lines 107-110). The constant
`"type": "numeric"` tag is carried by every returned dictionary and is omitted. -/
def extractNumericIterative (g : List Char → NumResult) (text : List Char)
    (form : String) : NumResult :=
  let chunks := chunksOf text
  match (runSearch chunks form g (priorityOrder chunks.length)).2 with
  | some d => d
  | none => if form = "10-Q" then .q10 none else .k10 none none

/-! ### ResponseParser — backend/llm.py, `_parse_numeric_response`, `_clean_number`,
and the response-handling part of `_extract_qualitative`.

Python's `str.strip`, `str.split`, `json.loads`, `re.findall`, `float()` and
`int()` are standard-library operations used by the source; each is embedded
below on `List Char` (JSON subset: `\\u` escapes and `inf`/`nan` float literals
are not exercised by the source's data and are not modelled). -/

/-- Backtick character (used by the Markdown fence ``` ). -/
def bt : Char := Char.ofNat 96

/-- Left brace character. -/
def lbrace : Char := Char.ofNat 123

/-- Right brace character. -/
def rbrace : Char := Char.ofNat 125

/-- Whitespace for Python `str.strip()` (ASCII whitespace set). -/
def isPySpace (c : Char) : Bool :=
  c = ' ' || c = '\t' || c = '\n' || c = '\r' || c = '\x0b' || c = '\x0c'

/-- Leading-whitespace removal of `str.strip()`. -/
def trimLeft (s : List Char) : List Char := s.dropWhile isPySpace

/-- Trailing-whitespace removal of `str.strip()`. -/
def trimRight (s : List Char) : List Char := (s.reverse.dropWhile isPySpace).reverse

/-- Python `str.strip()`. -/
def pyStrip (s : List Char) : List Char := trimRight (trimLeft s)

/-- `s.startswith("```")`. -/
def startsWithFence (s : List Char) : Bool := s.take 3 == [bt, bt, bt]

/-- `s.startswith("json")`. -/
def startsWithJson (s : List Char) : Bool := s.take 4 == ['j', 's', 'o', 'n']

/-- One step of Python `s.split("```")` (non-overlapping occurrences, left to
right); `fuel` bounds the recursion and any `fuel ≥ s.length` is exact. -/
def splitFenceAux : Nat → List Char → List Char → List (List Char)
  | 0, acc, _ => [acc.reverse]
  | fuel + 1, acc, s =>
    match s with
    | [] => [acc.reverse]
    | c :: rest =>
      if startsWithFence (c :: rest) then acc.reverse :: splitFenceAux fuel [] rest.tail.tail
      else splitFenceAux fuel (c :: acc) rest

/-- Python `s.split("```")`. -/
def splitFence (s : List Char) : List (List Char) := splitFenceAux s.length [] s

/-- JSON values produced by `json.loads`. -/
inductive Json
  | null
  | bool (b : Bool)
  | num (q : ℚ)
  | str (s : List Char)
  | arr (elems : List Json)
  | obj (fields : List (List Char × Json))

/-- Digit run to a natural number. -/
def digitsToNat (ds : List Char) : Nat :=
  ds.foldl (fun a c => a * 10 + (c.toNat - 48)) 0

/-- The exact rational value of a decimal literal `[-]intDs[.fracDs]e` —
`± (intDs.fracDs) × 10^e` — built by one `mkRat` so that it evaluates by kernel
reduction. -/
def ratOfParts (neg : Bool) (intDs fracDs : List Char) (e : Int) : ℚ :=
  let base : Nat := digitsToNat intDs * 10 ^ fracDs.length + digitsToNat fracDs
  let signed : Int := if neg then -(base : Int) else (base : Int)
  if 0 ≤ e then mkRat (signed * ((10 ^ e.toNat : Nat) : Int)) (10 ^ fracDs.length)
  else mkRat signed (10 ^ fracDs.length * 10 ^ (-e).toNat)

/-- Exponent part `e/E [+-] digits` of a numeric literal; absent exponent parses
as `0`. `none` means the mandatory digits after `e` are missing. -/
def parseExpPart (s : List Char) : Option (Int × List Char) :=
  match s with
  | c :: r =>
    if c = 'e' ∨ c = 'E' then
      match r with
      | d :: r2 =>
        if d = '+' then
          (match r2.takeWhile Char.isDigit with
           | [] => none
           | ds => some ((digitsToNat ds : Int), r2.dropWhile Char.isDigit))
        else if d = '-' then
          (match r2.takeWhile Char.isDigit with
           | [] => none
           | ds => some (-(digitsToNat ds : Int), r2.dropWhile Char.isDigit))
        else
          (match r.takeWhile Char.isDigit with
           | [] => none
           | ds => some ((digitsToNat ds : Int), r.dropWhile Char.isDigit))
      | [] => none
    else some (0, s)
  | [] => some (0, s)

/-- A JSON number: `-? int frac? exp?` with no leading zeros, per `json.loads`. -/
def parseJsonNumber (s : List Char) : Option (ℚ × List Char) :=
  let signed : Bool × List Char := match s with
    | c :: r => if c = '-' then (true, r) else (false, s)
    | [] => (false, s)
  let neg := signed.1
  let s1 := signed.2
  let intDs := s1.takeWhile Char.isDigit
  let s2 := s1.dropWhile Char.isDigit
  if intDs = [] then none
  else if 1 < intDs.length ∧ intDs.head? = some '0' then none
  else
    let fracStep : Option (List Char × List Char) := match s2 with
      | c :: r =>
        if c = '.' then
          (match r.takeWhile Char.isDigit with
           | [] => none
           | fs => some (fs, r.dropWhile Char.isDigit))
        else some ([], s2)
      | [] => some ([], s2)
    match fracStep with
    | none => none
    | some (fracDs, s3) =>
      match parseExpPart s3 with
      | none => none
      | some (e, s4) => some (ratOfParts neg intDs fracDs e, s4)

/-- Body of a JSON string after the opening quote, with the common escapes. -/
def parseJsonStringBody : Nat → List Char → Option (List Char × List Char)
  | 0, _ => none
  | _, [] => none
  | fuel + 1, c :: r =>
    if c = '"' then some ([], r)
    else if c = '\\' then
      match r with
      | [] => none
      | e :: r2 =>
        let ec : Option Char :=
          if e = '"' then some '"'
          else if e = '\\' then some '\\'
          else if e = '/' then some '/'
          else if e = 'n' then some '\n'
          else if e = 't' then some '\t'
          else if e = 'r' then some '\r'
          else if e = 'b' then some (Char.ofNat 8)
          else if e = 'f' then some (Char.ofNat 12)
          else none
        match ec with
        | none => none
        | some c2 => (parseJsonStringBody fuel r2).map (fun p => (c2 :: p.1, p.2))
    else (parseJsonStringBody fuel r).map (fun p => (c :: p.1, p.2))

/-- JSON whitespace. -/
def isJsonWs (c : Char) : Bool := c = ' ' || c = '\t' || c = '\n' || c = '\r'

/-- Skip JSON whitespace. -/
def skipJsonWs (s : List Char) : List Char := s.dropWhile isJsonWs

/-- Parser modes: a value, the members of an object, the elements of an array. -/
inductive PMode
  | val
  | objMembers (acc : List (List Char × Json))
  | arrElems (acc : List Json)

/-- Recursive-descent JSON parser, fuel-bounded (any sufficiently large fuel is
exact; `jsonLoads` supplies one). -/
def parseStep : Nat → PMode → List Char → Option (Json × List Char)
  | 0, _, _ => none
  | fuel + 1, PMode.val, s =>
    let s1 := skipJsonWs s
    if s1.take 4 = ("null".toList) then some (Json.null, s1.drop 4)
    else if s1.take 4 = ("true".toList) then some (Json.bool true, s1.drop 4)
    else if s1.take 5 = ("false".toList) then some (Json.bool false, s1.drop 5)
    else
      match s1 with
      | [] => none
      | c :: r =>
        if c = '"' then (parseJsonStringBody fuel r).map (fun p => (Json.str p.1, p.2))
        else if c = lbrace then
          (if (skipJsonWs r).take 1 = [rbrace] then some (Json.obj [], (skipJsonWs r).drop 1)
           else parseStep fuel (PMode.objMembers []) r)
        else if c = '[' then
          (if (skipJsonWs r).take 1 = [']'] then some (Json.arr [], (skipJsonWs r).drop 1)
           else parseStep fuel (PMode.arrElems []) r)
        else (parseJsonNumber s1).map (fun p => (Json.num p.1, p.2))
  | fuel + 1, PMode.objMembers acc, s =>
    (match skipJsonWs s with
     | c :: r =>
       if c = '"' then
         match parseJsonStringBody fuel r with
         | none => none
         | some (key, r2) =>
           (match skipJsonWs r2 with
            | ':' :: r3 =>
              (match parseStep fuel PMode.val r3 with
               | none => none
               | some (v, r4) =>
                 (match skipJsonWs r4 with
                  | ',' :: r5 => parseStep fuel (PMode.objMembers (acc ++ [(key, v)])) r5
                  | d :: r5 => if d = rbrace then some (Json.obj (acc ++ [(key, v)]), r5) else none
                  | [] => none))
            | _ => none)
       else none
     | [] => none)
  | fuel + 1, PMode.arrElems acc, s =>
    (match parseStep fuel PMode.val s with
     | none => none
     | some (v, r) =>
       (match skipJsonWs r with
        | ',' :: r2 => parseStep fuel (PMode.arrElems (acc ++ [v])) r2
        | ']' :: r2 => some (Json.arr (acc ++ [v]), r2)
        | _ => none))

/-- `json.loads`: parse one value, allow surrounding whitespace, reject trailing
content. -/
def jsonLoads (s : List Char) : Option Json :=
  match parseStep (4 * s.length + 16) PMode.val s with
  | some (v, rest) => if skipJsonWs rest = [] then some v else none
  | none => none

/-- `dict.get(key)` for a parsed JSON object (later duplicate keys win, as in a
Python dict built by `json.loads`). -/
def objGet (fields : List (List Char × Json)) (k : List Char) : Option Json :=
  (fields.reverse.find? (fun p => p.1 == k)).map (fun p => p.2)

/-- Python `float(str)` on the decimal forms the source can feed it: optional
surrounding whitespace and sign, `digits[.digits][e[+-]digits]` with at least
one digit overall (also `.5`, `5.`). `none` models the `ValueError` of any
other input. -/
def pyFloatString (s : List Char) : Option ℚ :=
  let t := pyStrip s
  let signed : Bool × List Char := match t with
    | c :: r => if c = '-' then (true, r) else if c = '+' then (false, r) else (false, t)
    | [] => (false, t)
  let neg := signed.1
  let t1 := signed.2
  let intDs := t1.takeWhile Char.isDigit
  let t2 := t1.dropWhile Char.isDigit
  let fracPair : List Char × List Char := match t2 with
    | c :: r => if c = '.' then (r.takeWhile Char.isDigit, r.dropWhile Char.isDigit) else ([], t2)
    | [] => ([], t2)
  let fracDs := fracPair.1
  let t3 := fracPair.2
  if intDs = [] ∧ fracDs = [] then none
  else
    match parseExpPart t3 with
    | none => none
    | some (e, t4) =>
      if t4 = [] then some (ratOfParts neg intDs fracDs e) else none

/-- Lower-case a character (ASCII). -/
def lowerChar (c : Char) : Char :=
  if 'A' ≤ c ∧ c ≤ 'Z' then Char.ofNat (c.toNat + 32) else c

/-- `_clean_number` (backend/llm.py lines 265-272) applied to `dict.get`'s result:
`None` and the literal string "null" (case-insensitive) give `None`; otherwise
`float(value)` with `ValueError`/`TypeError` caught to `None` (`float` of a bool
is 0.0/1.0; of a list or dict it raises). -/
def cleanNumber : Option Json → Option ℚ
  | none => none
  | some Json.null => none
  | some (Json.str s) =>
    if s.map lowerChar = ("null".toList) then none else pyFloatString s
  | some (Json.num q) => some q
  | some (Json.bool b) => some (if b then 1 else 0)
  | some (Json.arr _) => none
  | some (Json.obj _) => none

/-- One attempted match of the regex `[-+]?\d+\.?\d*(?:e[-+]?\d+)?` anchored at
the start of `s` (greedy, as the Python `re` engine behaves on this pattern):
returns the matched token and the remaining input, or `none` when no match
starts here. -/
def matchNumAt (s : List Char) : Option (List Char × List Char) :=
  let signed : List Char × List Char := match s with
    | c :: r => if c = '-' ∨ c = '+' then ([c], r) else ([], s)
    | [] => ([], s)
  let sign := signed.1
  let s1 := signed.2
  match s1.takeWhile Char.isDigit with
  | [] => none
  | ds =>
    let s2 := s1.dropWhile Char.isDigit
    let dotted : List Char × List Char := match s2 with
      | c :: r => if c = '.' then (['.'], r) else ([], s2)
      | [] => ([], s2)
    let dot := dotted.1
    let s3 := dotted.2
    let ds2 := s3.takeWhile Char.isDigit
    let s4 := s3.dropWhile Char.isDigit
    let expPart : List Char × List Char := match s4 with
      | c :: r =>
        if c = 'e' then
          match r with
          | d :: r2 =>
            if d = '+' ∨ d = '-' then
              (match r2.takeWhile Char.isDigit with
               | [] => ([], s4)
               | eds => ('e' :: d :: eds, r2.dropWhile Char.isDigit))
            else
              (match r.takeWhile Char.isDigit with
               | [] => ([], s4)
               | eds => ('e' :: eds, r.dropWhile Char.isDigit))
          | [] => ([], s4)
        else ([], s4)
      | [] => ([], s4)
    some (sign ++ ds ++ dot ++ ds2 ++ expPart.1, expPart.2)

/-- `re.findall(r'[-+]?\d+\.?\d*(?:e[-+]?\d+)?', s)`: left-to-right scan for
non-overlapping matches; fuel-bounded (every match consumes at least one
character, so `s.length` fuel is exact). -/
def findNums : Nat → List Char → List (List Char)
  | 0, _ => []
  | _, [] => []
  | fuel + 1, c :: rest =>
    match matchNumAt (c :: rest) with
    | some (tok, after) => tok :: findNums fuel after
    | none => findNums fuel rest

/-- `float(tok)` on a token matched by the fallback regex. -/
def tokenToRat (tok : List Char) : ℚ := (pyFloatString tok).getD 0

/-- The regex-fallback branch of `_parse_numeric_response` (backend/llm.py lines
252-262): strip thousands separators (`response.replace(",", "")`), find numeric
substrings, and pick them positionally per form type. -/
def numericFallback (response : List Char) (form : String) : NumResult :=
  let cleaned := response.filter (fun c => !(c == ','))
  let nums := (findNums cleaned.length cleaned).map tokenToRat
  if form = "10-Q" then .q10 nums.head?
  else
    match nums with
    | a :: b :: _ => .k10 (some a) (some b)
    | [a] => .k10 (some a) none
    | [] => .k10 none none

/-- `_parse_numeric_response` (backend/llm.py lines 241-262): try `json.loads`;
on success extract the expected fields through `_clean_number` (an `AttributeError`
on a non-dict value propagates, modelled as `none`); on `json.JSONDecodeError`
run the regex fallback. -/
def parseNumericResponse (response : List Char) (form : String) : Option NumResult :=
  match jsonLoads response with
  | some (Json.obj fields) =>
    if form = "10-Q" then some (.q10 (cleanNumber (objGet fields ("quarterly".toList))))
    else some (.k10 (cleanNumber (objGet fields ("annual".toList)))
                    (cleanNumber (objGet fields ("quarterly".toList))))
  | some _ => none
  | none => some (numericFallback response form)

/-! ### Qualitative response handling — backend/llm.py lines 182-200 -/

/-- Python `int(x)` on a JSON value: truncation toward zero for a number,
0/1 for a bool, an integer-literal parse for a string; anything else raises
(modelled `none`). -/
def pyIntString (s : List Char) : Option Int :=
  let t := pyStrip s
  let signed : Bool × List Char := match t with
    | c :: r => if c = '-' then (true, r) else if c = '+' then (false, r) else (false, t)
    | [] => (false, t)
  match signed.2 with
  | [] => none
  | ds =>
    if ds.all Char.isDigit then
      some (if signed.1 then -(digitsToNat ds : Int) else (digitsToNat ds : Int))
    else none

/-- `int(value)` for a value taken from a parsed JSON dict. -/
def pyIntOfJson : Json → Option Int
  | Json.num q => some (Int.tdiv q.num (q.den : Int))
  | Json.bool b => some (if b then 1 else 0)
  | Json.str s => pyIntString s
  | _ => none

/-- `value[:200]`: slicing is defined for strings and lists; anything else
raises (modelled `none`). -/
def slice200 : Json → Option Json
  | Json.str s => some (Json.str (s.take 200))
  | Json.arr l => some (Json.arr (l.take 200))
  | _ => none

/-- The qualitative result dict `{"type": "score", "score": ..., "evidence": ...}`
(constant tag omitted). -/
structure QualResult where
  score : Option Int
  evidence : Json

/-- The failure value returned by the `except` branch of `_extract_qualitative`
(backend/llm.py line 200). -/
def qualFailure : QualResult := ⟨none, Json.str ("Extraction failed".toList)⟩

/-- Lines 191-196 of backend/llm.py: `json.loads` then
`int(data.get("score", 5))` and `data.get("evidence", "No evidence provided")[:200]`,
with any exception (decode error, `.get` on a non-dict, bad `int`, bad slice)
caught to the failure value. -/
def qualFromJson : Option Json → QualResult
  | some (Json.obj fields) =>
    let scoreVal := (objGet fields ("score".toList)).getD (Json.num 5)
    (match pyIntOfJson scoreVal with
     | none => qualFailure
     | some n =>
       let evVal := (objGet fields ("evidence".toList)).getD (Json.str ("No evidence provided".toList))
       (match slice200 evVal with
        | none => qualFailure
        | some ev => ⟨some n, ev⟩))
  | _ => qualFailure

/-- Lines 182-190 of backend/llm.py: strip the raw response, and if it starts
with a Markdown fence take `result.split("```")[1]`, drop a leading `json` tag,
and strip again. `none` models the `IndexError` when the split has no second
element (impossible after a fence, kept for faithfulness). -/
def qualJsonText (raw : List Char) : Option (List Char) :=
  let r := pyStrip raw
  if startsWithFence r then
    match (splitFence r).get? 1 with
    | none => none
    | some mid =>
      let mid2 := if startsWithJson mid then mid.drop 4 else mid
      some (pyStrip mid2)
  else some r

/-- The response-handling tail of `_extract_qualitative` (backend/llm.py lines
182-200), given the raw model response text. -/
def parseQualitative (raw : List Char) : QualResult :=
  match qualJsonText raw with
  | none => qualFailure
  | some t => qualFromJson (jsonLoads t)

/-! ### ExtractionOrchestrator — backend/app.py, route `extract_feature`.

The external collaborators (`ticker_to_cik`, `get_filing_urls`, `fetch_filing`
+ `prepare_for_llm`, and the per-chunk model call) are oracle fields. The
per-filing extraction entry is `llm.extract_feature`'s credential check
(backend/llm.py lines 21-23) followed by the numeric iterative path; the
`ValueError` it raises is the only exception reaching the route's `except`. -/

/-- A filing record as produced by the filing lister (backend/sec.py lines 43-47). -/
structure Filing where
  url : String
  form_type : String
  filing_date : String
deriving DecidableEq

/-- A row of the route's `results` list: either a ticker-level error dict
(`{"ticker": ..., "error": ...}`) or a filing row (`error` is the optional
`"error"` key; absence is `none`). -/
inductive Row
  | tickerError (ticker : String) (error : String)
  | filingRow (ticker : String) (value : Option ℚ) (period_type : String)
      (filing_url : String) (filing_date : String) (form_type : String)
      (feature : String) (error : Option String)
deriving DecidableEq

/-- `row.get("period_type")`. -/
def Row.periodTypeOf : Row → Option String
  | .tickerError _ _ => none
  | .filingRow _ _ p _ _ _ _ _ => some p

/-- `row.get("value")` (`none` when the row has no `value` key at all). -/
def Row.valueOf : Row → Option (Option ℚ)
  | .tickerError _ _ => none
  | .filingRow _ v _ _ _ _ _ _ => some v

/-- `row.get("error")`. -/
def Row.errorOf : Row → Option String
  | .tickerError _ e => some e
  | .filingRow _ _ _ _ _ _ _ e => e

/-- The placeholder rows appended when a filing's fetch fails (backend/app.py
lines 50-82): two rows for a 10-K (`annual` then `quarterly`), one `quarterly`
row otherwise (`else:  # 10-Q`), each with `value: None` and
`error: "Failed to fetch filing"`. -/
def fetchFailRows (ticker feature : String) (fl : Filing) : List Row :=
  if fl.form_type = "10-K" then
    [.filingRow ticker none "annual" fl.url fl.filing_date fl.form_type feature
        (some "Failed to fetch filing"),
     .filingRow ticker none "quarterly" fl.url fl.filing_date fl.form_type feature
        (some "Failed to fetch filing")]
  else
    [.filingRow ticker none "quarterly" fl.url fl.filing_date fl.form_type feature
        (some "Failed to fetch filing")]

/-- The rows appended after a successful fetch and extraction (backend/app.py
lines 88-119): for a 10-K an `annual` row from `values_dict.get("annual")` and a
`quarterly` row from `values_dict.get("quarterly")`; for a 10-Q one `quarterly`
row; no `error` key on any of them. -/
def successRows (ticker feature : String) (fl : Filing) (values : NumResult) : List Row :=
  if fl.form_type = "10-K" then
    [.filingRow ticker values.getAnnual "annual" fl.url fl.filing_date fl.form_type feature none,
     .filingRow ticker values.getQuarterly "quarterly" fl.url fl.filing_date fl.form_type feature none]
  else if fl.form_type = "10-Q" then
    [.filingRow ticker values.getQuarterly "quarterly" fl.url fl.filing_date fl.form_type feature none]
  else []

/-- External calls made during per-ticker work, recorded as a trace. -/
inductive Ev
  | resolveCall (ticker : String)
  | listCall (cik : String)
  | fetchCall (url : String)
deriving DecidableEq

/-- The external collaborators of the route, as oracles: ticker resolver,
filing lister (with the request `limit` folded in), document fetcher
(`none` = request failure; the route also treats an empty body as a failure
because of `if not html`), text normalizer `prepare_for_llm`, and the
per-chunk model call keyed by form type. -/
structure Oracles where
  resolve : String → Option String
  listFilings : String → List Filing
  fetchDoc : String → Option (List Char)
  prepareText : List Char → List Char
  chunkExtract : String → List Char → NumResult

/-- `llm.extract_feature`'s entry for the numeric path (backend/llm.py lines
21-32): raise `ValueError` when `PERPLEXITY_API_KEY` is absent, otherwise run
the iterative numeric extraction. -/
def extractFeatureLLM (apiKey : Option String) (o : Oracles) (text : List Char)
    (form : String) : Except String NumResult :=
  match apiKey with
  | none => Except.error "PERPLEXITY_API_KEY not found in environment variables"
  | some _ => Except.ok (extractNumericIterative (o.chunkExtract form) text form)

/-- The per-filing loop (backend/app.py lines 47-119): fetch; on failure (or an
empty body) append placeholder rows and continue; on success normalize, extract
(an exception here aborts the whole request — first component is the trace of
external calls made so far), and append the result rows. -/
def goFilings (apiKey : Option String) (o : Oracles) (ticker feature : String) :
    List Filing → List Row → List Ev → List Ev × Except String (List Row)
  | [], acc, tr => (tr, Except.ok acc)
  | fl :: rest, acc, tr =>
    let tr2 := tr ++ [Ev.fetchCall fl.url]
    match o.fetchDoc fl.url with
    | none => goFilings apiKey o ticker feature rest (acc ++ fetchFailRows ticker feature fl) tr2
    | some [] => goFilings apiKey o ticker feature rest (acc ++ fetchFailRows ticker feature fl) tr2
    | some (c :: cs) =>
      let text := o.prepareText (c :: cs)
      match extractFeatureLLM apiKey o text fl.form_type with
      | Except.error e => (tr2, Except.error e)
      | Except.ok values =>
        goFilings apiKey o ticker feature rest (acc ++ successRows ticker feature fl values) tr2

/-- The per-ticker loop (backend/app.py lines 35-119): resolve the ticker (error
row and continue on failure), list filings (error row and continue when empty),
then process the filings. -/
def goTickers (apiKey : Option String) (o : Oracles) (feature : String) :
    List String → List Row → List Ev → List Ev × Except String (List Row)
  | [], acc, tr => (tr, Except.ok acc)
  | t :: rest, acc, tr =>
    let tr2 := tr ++ [Ev.resolveCall t]
    match o.resolve t with
    | none => goTickers apiKey o feature rest (acc ++ [Row.tickerError t "Ticker not found"]) tr2
    | some cik =>
      let tr3 := tr2 ++ [Ev.listCall cik]
      match o.listFilings cik with
      | [] => goTickers apiKey o feature rest (acc ++ [Row.tickerError t "No filings found"]) tr3
      | fl :: fls =>
        match goFilings apiKey o t feature (fl :: fls) acc tr3 with
        | (tr4, Except.error e) => (tr4, Except.error e)
        | (tr4, Except.ok acc2) => goTickers apiKey o feature rest acc2 tr4

/-- The `/api/extract` route (backend/app.py lines 18-124): validate the request
(`if not tickers or not feature` is a client error), run the loops; an exception
escaping them becomes a request-level error response whose body the accumulated
results never reach. Returns the trace of external calls with the outcome. -/
def apiExtract (apiKey : Option String) (o : Oracles) (tickers : List String)
    (feature : String) : List Ev × Except String (List Row) :=
  if tickers = [] ∨ feature = "" then ([], Except.error "tickers and feature are required")
  else goTickers apiKey o feature tickers [] []

/-- A raw response wrapped in a Markdown code fence with the `json` language
tag: three backticks, `json`, newline, the response, newline, three backticks. -/
def fenceWrap (r : List Char) : List Char :=
  [bt, bt, bt, 'j', 's', 'o', 'n', '\n'] ++ r ++ ['\n', bt, bt, bt]

/-- Concrete oracles for witness/counterexample runs. -/
def sampleOracles : Oracles where
  resolve := fun _ => some "0000320193"
  listFilings := fun _ => [⟨"https://example.com/f1.htm", "10-K", "2024-11-01"⟩]
  fetchDoc := fun _ => some ('x' :: [])
  prepareText := fun t => t
  chunkExtract := fun _ _ => NumResult.k10 none none

/-! ## Theorems -/

/-- Claim C2: every 10-K filing yields exactly two result rows (period types
`annual` then `quarterly`) and every 10-Q filing exactly one (`quarterly`),
on both the fetch-failure path and the successful-extraction path, for every
ticker, feature, filing metadata and extraction outcome. -/
theorem c2_row_count_invariant :
    ∀ (t f url date : String) (v : NumResult),
      (fetchFailRows t f ⟨url, "10-K", date⟩).map Row.periodTypeOf =
        [some "annual", some "quarterly"] ∧
      (successRows t f ⟨url, "10-K", date⟩ v).map Row.periodTypeOf =
        [some "annual", some "quarterly"] ∧
      (fetchFailRows t f ⟨url, "10-Q", date⟩).map Row.periodTypeOf = [some "quarterly"] ∧
      (successRows t f ⟨url, "10-Q", date⟩ v).map Row.periodTypeOf = [some "quarterly"] := by
  intro t f url date v
  refine ⟨rfl, rfl, rfl, rfl⟩

/-- Claim C5 counterexample: the chunk list for the empty text is empty — it is
not the claimed single empty chunk. -/
theorem c5_counterexample :
    chunksOf [] = [] ∧ chunksOf [] ≠ [[]] := by
  refine ⟨rfl, by decide⟩

/-- Claim C5 (amended): chunk planning is a total function with no failure mode;
the empty text yields zero chunks, the priority order computed for zero chunks
is `[0]`, the in-loop guard filters that sole index out, and the iterative
extraction of the empty text therefore returns the all-null result for every
oracle and form type. -/
theorem c5_empty_text_amended :
    chunksOf [] = [] ∧ priorityOrder 0 = [0] ∧ filteredOrder 0 = [] ∧
      (∀ (g : List Char → NumResult) (form : String),
        extractNumericIterative g [] form =
          (if form = "10-Q" then NumResult.q10 none else NumResult.k10 none none)) := by
  refine ⟨rfl, rfl, rfl, fun g form => rfl⟩

/-- Claim C7: the numeric response parser returns annual 62146000000 and
quarterly null on the well-formed 10-K response, and the regex fallback returns
annual 500 and quarterly 200 on the malformed text `approx 500 and 200`. -/
theorem c7_parser_round_trip :
    parseNumericResponse ("\x7b\"annual\": 62146000000, \"quarterly\": null\x7d".toList) "10-K" =
      some (NumResult.k10 (some 62146000000) none) ∧
    parseNumericResponse ("approx 500 and 200".toList) "10-K" =
      some (NumResult.k10 (some 500) (some 200)) := by
  refine ⟨by decide, by decide⟩

/-- For ten or more chunks the in-loop guard removes nothing: every hard-coded
index and every index of the appended range is below `n`. -/
theorem filteredOrder_of_ten_le (n : Nat) (hn : 10 ≤ n) :
    filteredOrder n = [2, 3, 4, 1, 5, 6, 7, 8, 9] ++ List.range' 10 (n - 10) := by
  unfold filteredOrder priorityOrder
  rw [if_pos (by omega), List.filter_append]
  have h1 : ([2, 3, 4, 1, 5, 6, 7, 8, 9] : List Nat).filter (fun i => decide (i < n)) =
      [2, 3, 4, 1, 5, 6, 7, 8, 9] := by
    apply List.filter_eq_self.mpr
    intro a ha
    fin_cases ha <;> simp <;> omega
  have h2 : (List.range' 10 (n - 10)).filter (fun i => decide (i < n)) =
      List.range' 10 (n - 10) := by
    apply List.filter_eq_self.mpr
    intro a ha
    rw [List.mem_range'_1] at ha
    simp
    omega
  rw [h1, h2]

/-- Claim C1 counterexample: at `num_chunks = 5` the filtered priority order is
`[2, 3, 4, 1]` — not a permutation of `[0, 5)`, and index 0 is never searched. -/
theorem c1_counterexample :
    filteredOrder 5 = [2, 3, 4, 1] ∧ ¬ (filteredOrder 5).Perm (List.range 5) ∧
      0 ∉ filteredOrder 5 := by
  refine ⟨by decide, by decide, by decide⟩

/-- Claim C1 (amended): for 1-4 chunks the filtered priority order is a
permutation of `[0, num_chunks)`, with index 0 searched last when there are at
least two chunks; for 5 or more chunks it is a permutation of `[1, num_chunks)`
— every index except 0 is searched exactly once, and index 0 is deliberately
skipped (the code comment says "Skip chunk 0 (usually cover page)"). -/
theorem c1_priority_order_amended :
    ∀ n : Nat,
      (1 ≤ n → n ≤ 4 → (filteredOrder n).Perm (List.range n)) ∧
      (2 ≤ n → n ≤ 4 → filteredOrder n = List.range' 1 (n - 1) ++ [0]) ∧
      (5 ≤ n → (filteredOrder n).Perm (List.range' 1 (n - 1)) ∧ 0 ∉ filteredOrder n) := by
  intro n
  refine ⟨?_, ?_, ?_⟩
  · intro h1 h4
    interval_cases n <;> decide
  · intro h2 h4
    interval_cases n <;> decide
  · intro h5
    by_cases h10 : 10 ≤ n
    · have heq := filteredOrder_of_ten_le n h10
      have hr : List.range' 1 9 ++ List.range' 10 (n - 10) = List.range' 1 (n - 1) := by
        have h := List.range'_append_1 1 9 (n - 10)
        have h9 : n - 10 + 9 = n - 1 := by omega
        simpa [h9] using h
      have hperm : (filteredOrder n).Perm (List.range' 1 (n - 1)) := by
        rw [heq, ← hr]
        exact List.Perm.append_right _ (by decide)
      refine ⟨hperm, ?_⟩
      intro h0
      have hm := hperm.mem_iff.mp h0
      rw [List.mem_range'_1] at hm
      omega
    · have h9 : n ≤ 9 := by omega
      interval_cases n <;> exact ⟨by decide, by decide⟩

/-- Characterization of the chunk loop: the indices actually extracted are the
guard-filtered order up to and including the first success, and the outcome is
the first successful chunk's result. -/
theorem runSearch_eq (chunks : List (List Char)) (form : String)
    (g : List Char → NumResult) :
    ∀ l : List Nat,
      runSearch chunks form g l =
        ((l.filter (fun i => decide (i < chunks.length))).takeWhile
            (fun i => !(foundIn form (g (chunks.getD i [])))) ++
          ((l.filter (fun i => decide (i < chunks.length))).dropWhile
            (fun i => !(foundIn form (g (chunks.getD i []))))).take 1,
         ((l.filter (fun i => decide (i < chunks.length))).find?
            (fun i => foundIn form (g (chunks.getD i [])))).map
           (fun i => g (chunks.getD i []))) := by
  intro l
  induction l with
  | nil => simp [runSearch]
  | cons i rest ih =>
    simp only [runSearch]
    by_cases hlt : i < chunks.length
    · have hng : ¬ chunks.length ≤ i := by omega
      rw [if_neg hng]
      have hfil : (i :: rest).filter (fun j => decide (j < chunks.length)) =
          i :: rest.filter (fun j => decide (j < chunks.length)) := by
        simp only [List.filter_cons, decide_eq_true_eq, if_pos hlt]
      rw [hfil, List.takeWhile_cons, List.dropWhile_cons, List.find?_cons]
      cases hf : foundIn form (g (chunks.getD i []))
      · rw [ih]
        simp [hf]
      · simp [hf]
    · have hng : chunks.length ≤ i := by omega
      rw [if_pos hng, ih]
      have hfil : (i :: rest).filter (fun j => decide (j < chunks.length)) =
          rest.filter (fun j => decide (j < chunks.length)) := by
        simp only [List.filter_cons, decide_eq_true_eq, if_neg hlt]
      rw [hfil]

/-- Every chunk index the loop actually extracts from is below the chunk count:
the guard keeps `chunks[chunk_idx]` in range. -/
theorem runSearch_trace_lt (chunks : List (List Char)) (form : String)
    (g : List Char → NumResult) :
    ∀ (l : List Nat) (i : Nat), i ∈ (runSearch chunks form g l).1 → i < chunks.length := by
  intro l
  induction l with
  | nil => simp [runSearch]
  | cons j rest ih =>
    intro i hi
    simp only [runSearch] at hi
    by_cases hle : chunks.length ≤ j
    · rw [if_pos hle] at hi
      exact ih i hi
    · rw [if_neg hle] at hi
      cases hf : foundIn form (g (chunks.getD j []))
      · rw [hf] at hi
        simp only [Bool.false_eq_true, if_false, List.mem_cons] at hi
        rcases hi with rfl | hi
        · omega
        · exact ih i hi
      · rw [hf] at hi
        simp only [if_true, List.mem_singleton] at hi
        subst hi
        omega

/-- Full specification of the iterative extraction: result of the first
successful chunk (all-null when none succeeds) and the exact list of extracted
indices, for both form types. -/
theorem extractIterativeSpec :
    ∀ (g : List Char → NumResult) (text : List Char),
      extractNumericIterative g text "10-K" =
        (((filteredOrder (chunksOf text).length).find?
            (fun i => foundIn "10-K" (g ((chunksOf text).getD i [])))).map
          (fun i => g ((chunksOf text).getD i []))).getD (NumResult.k10 none none) ∧
      extractNumericIterative g text "10-Q" =
        (((filteredOrder (chunksOf text).length).find?
            (fun i => foundIn "10-Q" (g ((chunksOf text).getD i [])))).map
          (fun i => g ((chunksOf text).getD i []))).getD (NumResult.q10 none) ∧
      (runSearch (chunksOf text) "10-K" g (priorityOrder (chunksOf text).length)).1 =
        (filteredOrder (chunksOf text).length).takeWhile
          (fun i => !(foundIn "10-K" (g ((chunksOf text).getD i [])))) ++
        ((filteredOrder (chunksOf text).length).dropWhile
          (fun i => !(foundIn "10-K" (g ((chunksOf text).getD i []))))).take 1 ∧
      (runSearch (chunksOf text) "10-Q" g (priorityOrder (chunksOf text).length)).1 =
        (filteredOrder (chunksOf text).length).takeWhile
          (fun i => !(foundIn "10-Q" (g ((chunksOf text).getD i [])))) ++
        ((filteredOrder (chunksOf text).length).dropWhile
          (fun i => !(foundIn "10-Q" (g ((chunksOf text).getD i []))))).take 1 := by
  intro g text
  have hK := runSearch_eq (chunksOf text) "10-K" g (priorityOrder (chunksOf text).length)
  have hQ := runSearch_eq (chunksOf text) "10-Q" g (priorityOrder (chunksOf text).length)
  have hK2 := congrArg Prod.snd hK
  have hQ2 := congrArg Prod.snd hQ
  simp only [Prod.snd] at hK2 hQ2
  refine ⟨?_, ?_, ?_, ?_⟩
  · show (match (runSearch (chunksOf text) "10-K" g (priorityOrder (chunksOf text).length)).2 with
      | some d => d
      | none => if "10-K" = "10-Q" then NumResult.q10 none else NumResult.k10 none none) = _
    rw [hK2]
    unfold filteredOrder
    cases hfind : (((priorityOrder (chunksOf text).length).filter
        (fun i => decide (i < (chunksOf text).length))).find?
        (fun i => foundIn "10-K" (g ((chunksOf text).getD i [])))) with
    | none => simp
    | some j => simp
  · show (match (runSearch (chunksOf text) "10-Q" g (priorityOrder (chunksOf text).length)).2 with
      | some d => d
      | none => if "10-Q" = "10-Q" then NumResult.q10 none else NumResult.k10 none none) = _
    rw [hQ2]
    unfold filteredOrder
    cases hfind : (((priorityOrder (chunksOf text).length).filter
        (fun i => decide (i < (chunksOf text).length))).find?
        (fun i => foundIn "10-Q" (g ((chunksOf text).getD i [])))) with
    | none => simp
    | some j => simp
  · unfold filteredOrder
    rw [hK]
  · unfold filteredOrder
    rw [hQ]

/-- Claim C4: for each form type, the iterative numeric extraction returns the
result of the first chunk in the (guard-filtered) priority order whose result
satisfies the stop condition — quarterly non-null for a 10-Q, annual or
quarterly non-null for a 10-K — and the all-null dictionary when no chunk does;
the chunk indices actually extracted from are exactly the filtered order up to
and including that first successful chunk, so no chunk after the first success
is ever extracted from. -/
theorem c4_early_stop :
    ∀ (g : List Char → NumResult) (text : List Char),
      extractNumericIterative g text "10-K" =
        (((filteredOrder (chunksOf text).length).find?
            (fun i => foundIn "10-K" (g ((chunksOf text).getD i [])))).map
          (fun i => g ((chunksOf text).getD i []))).getD (NumResult.k10 none none) ∧
      extractNumericIterative g text "10-Q" =
        (((filteredOrder (chunksOf text).length).find?
            (fun i => foundIn "10-Q" (g ((chunksOf text).getD i [])))).map
          (fun i => g ((chunksOf text).getD i []))).getD (NumResult.q10 none) ∧
      (runSearch (chunksOf text) "10-K" g (priorityOrder (chunksOf text).length)).1 =
        (filteredOrder (chunksOf text).length).takeWhile
          (fun i => !(foundIn "10-K" (g ((chunksOf text).getD i [])))) ++
        ((filteredOrder (chunksOf text).length).dropWhile
          (fun i => !(foundIn "10-K" (g ((chunksOf text).getD i []))))).take 1 ∧
      (runSearch (chunksOf text) "10-Q" g (priorityOrder (chunksOf text).length)).1 =
        (filteredOrder (chunksOf text).length).takeWhile
          (fun i => !(foundIn "10-Q" (g ((chunksOf text).getD i [])))) ++
        ((filteredOrder (chunksOf text).length).dropWhile
          (fun i => !(foundIn "10-Q" (g ((chunksOf text).getD i []))))).take 1 :=
  extractIterativeSpec

/-- Claim C10: for every chunk count from 5 to 9 the hard-coded priority list
contains an index at or beyond the chunk count, and for every input text, form
type and extraction oracle, the loop guard confines the indices actually used
to read `chunks[chunk_idx]` to the valid range. -/
theorem c10_index_guard :
    (∀ n : Nat, 5 ≤ n → n ≤ 9 → ∃ i, i ∈ priorityOrder n ∧ n ≤ i) ∧
    (∀ (text : List Char) (form : String) (g : List Char → NumResult),
      ∀ i ∈ (runSearch (chunksOf text) form g (priorityOrder (chunksOf text).length)).1,
        i < (chunksOf text).length) := by
  constructor
  · intro n h5 h9
    refine ⟨9, ?_, by omega⟩
    interval_cases n <;> decide
  · intro text form g i hi
    exact runSearch_trace_lt (chunksOf text) form g _ i hi

/-- Claim C10 witness: the out-of-range index 9 sits in the priority list for 6
chunks, and a concrete searched index is in range. -/
theorem c10_index_guard_witness :
    (∃ i, i ∈ priorityOrder 6 ∧ 6 ≤ i) ∧ 0 < (chunksOf ("ab".toList)).length :=
  ⟨c10_index_guard.1 6 (by decide) (by decide),
   c10_index_guard.2 ("ab".toList) "10-K" (fun _ => NumResult.k10 none none) 0 (by decide)⟩

/-- Joining the first `m` chunk slices reconstructs the first `m * CHUNK_SIZE`
characters of the text. -/
theorem join_chunk_slices (s : List Char) :
    ∀ m : Nat,
      ((List.range m).map (fun k => (s.drop (k * CHUNK_SIZE)).take CHUNK_SIZE)).flatten =
        s.take (m * CHUNK_SIZE) := by
  intro m
  induction m with
  | zero => simp
  | succ m ih =>
    rw [List.range_succ, List.map_append, List.flatten_append, ih]
    have hm : (m + 1) * CHUNK_SIZE = m * CHUNK_SIZE + CHUNK_SIZE := by ring
    rw [hm, List.take_add]
    simp

/-- The chunks of a text concatenate back to the text. -/
theorem chunksOf_join (s : List Char) : (chunksOf s).flatten = s := by
  unfold chunksOf
  rw [join_chunk_slices]
  apply List.take_of_length_le
  show s.length ≤ numChunks s.length * CHUNK_SIZE
  unfold numChunks CHUNK_SIZE
  omega

/-- The leading chunk indices (all but the last) address slices of full length. -/
theorem chunksOf_dropLast (s : List Char) :
    (chunksOf s).dropLast =
      (List.range (numChunks s.length - 1)).map
        (fun k => (s.drop (k * CHUNK_SIZE)).take CHUNK_SIZE) := by
  unfold chunksOf
  rw [← List.map_dropLast]
  congr 1
  cases hm : numChunks s.length with
  | zero => rfl
  | succ m =>
    rw [List.range_succ, List.dropLast_concat]
    simp

/-- Claim C6: chunks are consecutive slices in document order with no gaps or
overlaps — their concatenation in index order equals the input text — each chunk
has at most `CHUNK_SIZE` characters, and every chunk except the last has exactly
`CHUNK_SIZE` characters (only the final chunk may be shorter). -/
theorem c6_chunk_coverage :
    ∀ s : List Char,
      (chunksOf s).flatten = s ∧
      (chunksOf s).all (fun c => decide (c.length ≤ CHUNK_SIZE)) = true ∧
      (chunksOf s).dropLast.all (fun c => decide (c.length = CHUNK_SIZE)) = true := by
  intro s
  refine ⟨chunksOf_join s, ?_, ?_⟩
  · rw [List.all_eq_true]
    intro c hc
    unfold chunksOf at hc
    rw [List.mem_map] at hc
    obtain ⟨k, _, rfl⟩ := hc
    simp [List.length_take]
  · rw [List.all_eq_true]
    intro c hc
    rw [chunksOf_dropLast s, List.mem_map] at hc
    obtain ⟨k, hk, rfl⟩ := hc
    rw [List.mem_range] at hk
    simp only [List.length_take, List.length_drop, decide_eq_true_eq]
    have hk1 : k + 1 < numChunks s.length := by omega
    unfold numChunks at hk1
    unfold CHUNK_SIZE at hk1 ⊢
    omega

/-- Claim C3: the two failure classes stay distinguishable. Fetch-failure rows
always carry `error = "Failed to fetch filing"` with a null value; and when the
search exhausts every chunk of the filtered priority order without a hit, the
extraction result is all-null and the emitted rows carry a null value with no
`error` key at all — for both form types. -/
theorem c3_failure_classes_distinguishable :
    ∀ t f url date : String,
      ((fetchFailRows t f ⟨url, "10-K", date⟩ ++ fetchFailRows t f ⟨url, "10-Q", date⟩).all
        (fun r => decide (Row.errorOf r = some "Failed to fetch filing") &&
          decide (Row.valueOf r = some none))) = true ∧
      (∀ (g : List Char → NumResult) (text : List Char),
        (filteredOrder (chunksOf text).length).find?
            (fun i => foundIn "10-K" (g ((chunksOf text).getD i []))) = none →
        ((successRows t f ⟨url, "10-K", date⟩ (extractNumericIterative g text "10-K")).all
          (fun r => decide (Row.errorOf r = none) && decide (Row.valueOf r = some none))) = true) ∧
      (∀ (g : List Char → NumResult) (text : List Char),
        (filteredOrder (chunksOf text).length).find?
            (fun i => foundIn "10-Q" (g ((chunksOf text).getD i []))) = none →
        ((successRows t f ⟨url, "10-Q", date⟩ (extractNumericIterative g text "10-Q")).all
          (fun r => decide (Row.errorOf r = none) && decide (Row.valueOf r = some none))) = true) := by
  intro t f url date
  refine ⟨rfl, ?_, ?_⟩
  · intro g text hnone
    have h := (extractIterativeSpec g text).1
    rw [hnone] at h
    simp at h
    rw [h]
    rfl
  · intro g text hnone
    have h := (extractIterativeSpec g text).2.1
    rw [hnone] at h
    simp at h
    rw [h]
    rfl

/-- Claim C3 witness: at a concrete oracle that never finds data, the 10-K rows
of a one-chunk text have null values and no error key. -/
theorem c3_failure_classes_witness :
    ((successRows "T" "bv" ⟨"u", "10-K", "d"⟩
        (extractNumericIterative (fun _ => NumResult.k10 none none) ("ab".toList) "10-K")).all
      (fun r => decide (Row.errorOf r = none) && decide (Row.valueOf r = some none))) = true :=
  (c3_failure_classes_distinguishable "T" "bv" "u" "d").2.1
    (fun _ => NumResult.k10 none none) ("ab".toList) (by decide)

/-- Claim C9 counterexample: with the credential absent, a concrete run resolves
the ticker, lists its filings and fetches a document — all per-ticker work —
before the missing-key error is raised, contradicting "raised before any
per-ticker work begins". The error does surface at request level. -/
theorem c9_counterexample :
    (apiExtract none sampleOracles ["T"] "book value").2 =
      Except.error "PERPLEXITY_API_KEY not found in environment variables" ∧
    (apiExtract none sampleOracles ["T"] "book value").1 =
      [Ev.resolveCall "T", Ev.listCall "0000320193",
       Ev.fetchCall "https://example.com/f1.htm"] :=
  ⟨rfl, rfl⟩

/-- Claim C9 (amended): a missing provider credential is request-fatal and
surfaces as a request-level error (the accumulated rows are discarded, not
returned), but it is raised only at the first extraction attempt — after ticker
resolution, filing listing and a successful document fetch have already
happened — not before per-ticker work begins. -/
theorem c9_missing_key_amended :
    ∀ (o : Oracles) (t : String) (rest : List String) (feature cik : String)
      (fl : Filing) (fls : List Filing) (c : Char) (cs : List Char),
      feature ≠ "" → o.resolve t = some cik → o.listFilings cik = fl :: fls →
      o.fetchDoc fl.url = some (c :: cs) →
      apiExtract none o (t :: rest) feature =
        ([Ev.resolveCall t, Ev.listCall cik, Ev.fetchCall fl.url],
         Except.error "PERPLEXITY_API_KEY not found in environment variables") := by
  intro o t rest feature cik fl fls c cs hfeat hres hlist hfetch
  unfold apiExtract
  rw [if_neg (by simp [hfeat])]
  simp [goTickers, goFilings, extractFeatureLLM, hres, hlist, hfetch]

/-- Claim C9 witness: the amended statement at a concrete run. -/
theorem c9_missing_key_witness :
    apiExtract none sampleOracles ["AAPL"] "book value" =
      ([Ev.resolveCall "AAPL", Ev.listCall "0000320193",
        Ev.fetchCall "https://example.com/f1.htm"],
       Except.error "PERPLEXITY_API_KEY not found in environment variables") :=
  c9_missing_key_amended sampleOracles "AAPL" [] "book value" "0000320193"
    ⟨"https://example.com/f1.htm", "10-K", "2024-11-01"⟩ [] 'x' [] (by decide) rfl rfl rfl

/-- Claim C1 witness: the amended statement at `num_chunks = 7`. -/
theorem c1_priority_order_witness :
    (filteredOrder 7).Perm (List.range' 1 6) ∧ 0 ∉ filteredOrder 7 :=
  (c1_priority_order_amended 7).2.2 (by decide)

/-- The backtick is not whitespace. -/
theorem isPySpace_bt : isPySpace bt = false := by decide

/-- A list whose characters are all non-backtick does not start with a fence. -/
theorem startsWithFence_false (r : List Char) (hr : ∀ c ∈ r, c ≠ bt) :
    startsWithFence r = false := by
  unfold startsWithFence
  rw [beq_eq_false_iff_ne]
  intro h
  have hmem : bt ∈ r.take 3 := by rw [h]; simp
  exact hr bt (List.take_subset 3 r hmem) rfl

/-- Splitting on the fence scans over a backtick-free prefix, pushing it into
the accumulator, with fuel decreasing by exactly the prefix length. -/
theorem splitFenceAux_scan :
    ∀ (m : List Char), (∀ c ∈ m, c ≠ bt) →
      ∀ (f : Nat) (acc s : List Char),
        splitFenceAux (m.length + f) acc (m ++ s) = splitFenceAux f (m.reverse ++ acc) s := by
  intro m
  induction m with
  | nil => intro _ f acc s; simp
  | cons c m' ih =>
    intro hm f acc s
    have hc : c ≠ bt := hm c (by simp)
    have hfence : startsWithFence (c :: (m' ++ s)) = false := by
      unfold startsWithFence
      rw [beq_eq_false_iff_ne]
      intro h
      rw [List.take_succ_cons] at h
      exact hc (by injection h)
    have hfuel : (c :: m').length + f = (m'.length + f) + 1 := by
      simp [List.length_cons]
      omega
    rw [hfuel]
    show splitFenceAux ((m'.length + f) + 1) acc (c :: (m' ++ s)) = _
    simp only [splitFenceAux, hfence, Bool.false_eq_true, if_false]
    rw [ih (fun d hd => hm d (by simp [hd])) f (c :: acc) s]
    simp

/-- Consuming a terminal fence with at least two units of fuel left. -/
theorem splitFenceAux_end (f : Nat) (acc : List Char) :
    splitFenceAux (f + 2) acc [bt, bt, bt] = [acc.reverse, []] := by
  show splitFenceAux ((f + 1) + 1) acc (bt :: bt :: bt :: []) = _
  simp only [splitFenceAux]
  rw [if_pos (by decide)]
  show _ :: splitFenceAux (f + 1) [] [] = _
  simp [splitFenceAux]

/-- The fence-wrapped response splits into the empty lead, the tagged middle,
and the empty tail, exactly as Python's `split("```")` does. -/
theorem splitFence_fenceWrap (r : List Char) (hr : ∀ c ∈ r, c ≠ bt) :
    splitFence (fenceWrap r) =
      [[], 'j' :: 's' :: 'o' :: 'n' :: '\n' :: (r ++ ['\n']), []] := by
  unfold splitFence
  have hlen : (fenceWrap r).length = (r.length + 11) + 1 := by
    simp [fenceWrap]
  rw [hlen]
  have hshape : fenceWrap r =
      bt :: (bt :: bt :: ('j' :: 's' :: 'o' :: 'n' :: '\n' :: (r ++ ['\n'])) ++ [bt, bt, bt]) := by
    simp [fenceWrap]
  rw [hshape]
  simp only [splitFenceAux]
  rw [if_pos (by simp [startsWithFence, List.take_succ_cons])]
  show [] :: splitFenceAux (r.length + 11) []
      (('j' :: 's' :: 'o' :: 'n' :: '\n' :: (r ++ ['\n'])) ++ [bt, bt, bt]) = _
  have hm : ∀ c ∈ 'j' :: 's' :: 'o' :: 'n' :: '\n' :: (r ++ ['\n']), c ≠ bt := by
    intro c hcm
    simp only [List.mem_cons, List.mem_append] at hcm
    rcases hcm with rfl | rfl | rfl | rfl | rfl | hcm | hcm
    · decide
    · decide
    · decide
    · decide
    · decide
    · exact hr c hcm
    · have hc : c = '\n' := by simpa using hcm
      subst hc
      decide
  have hfuel2 : r.length + 11 = ('j' :: 's' :: 'o' :: 'n' :: '\n' :: (r ++ ['\n'])).length + 5 := by
    simp
  rw [hfuel2, splitFenceAux_scan _ hm 5 [] [bt, bt, bt]]
  show [] :: splitFenceAux (3 + 2) _ [bt, bt, bt] = _
  rw [splitFenceAux_end]
  simp

/-- A string equal to its own strip is equal to each one-sided trim. -/
theorem trim_eq_of_pyStrip (r : List Char) (h : pyStrip r = r) :
    trimLeft r = r ∧ trimRight r = r := by
  have h1 : (trimLeft r).length ≤ r.length :=
    (List.dropWhile_sublist isPySpace).length_le
  have h2 : (trimRight (trimLeft r)).length ≤ (trimLeft r).length := by
    unfold trimRight
    rw [List.length_reverse]
    calc ((trimLeft r).reverse.dropWhile isPySpace).length
        ≤ (trimLeft r).reverse.length := (List.dropWhile_sublist isPySpace).length_le
      _ = (trimLeft r).length := List.length_reverse _
  have hlen := congrArg List.length h
  unfold pyStrip at hlen
  have hTLlen : (trimLeft r).length = r.length := by omega
  have hTL : trimLeft r = r :=
    (List.dropWhile_sublist isPySpace).eq_of_length hTLlen
  refine ⟨hTL, ?_⟩
  have h' := h
  unfold pyStrip at h'
  rw [hTL] at h'
  exact h'

/-- Stripping a response that was wrapped in single newlines on both sides
recovers the already-stripped response. -/
theorem pyStrip_newline_wrap (r : List Char) (hTL : trimLeft r = r)
    (hTR : trimRight r = r) :
    pyStrip ('\n' :: (r ++ ['\n'])) = r := by
  have hnl : isPySpace '\n' = true := by decide
  unfold pyStrip
  have h1 : trimLeft ('\n' :: (r ++ ['\n'])) = trimLeft (r ++ ['\n']) := by
    simp [trimLeft, List.dropWhile_cons, hnl]
  rw [h1]
  cases r with
  | nil => decide
  | cons c r' =>
    have hc : isPySpace c = false := by
      cases hcc : isPySpace c
      · rfl
      · exfalso
        have hdw : trimLeft (c :: r') = trimLeft r' := by
          simp [trimLeft, List.dropWhile_cons, hcc]
        have hlen := congrArg List.length (hdw.symm.trans hTL)
        have hle : (trimLeft r').length ≤ r'.length :=
          (List.dropWhile_sublist isPySpace).length_le
        simp [trimLeft] at hlen hle
        omega
    have h2 : trimLeft ((c :: r') ++ ['\n']) = (c :: r') ++ ['\n'] := by
      simp [trimLeft, List.dropWhile_cons, hc]
    rw [h2]
    have h3 : trimRight ((c :: r') ++ ['\n']) = trimRight (c :: r') := by
      unfold trimRight
      rw [List.reverse_append]
      simp [List.dropWhile_cons, hnl]
    rw [h3, hTR]

/-- The fence-wrapped response is already stripped: it starts and ends with a
backtick. -/
theorem pyStrip_fenceWrap (r : List Char) : pyStrip (fenceWrap r) = fenceWrap r := by
  have hbt : isPySpace bt = false := by decide
  have hshape : fenceWrap r =
      bt :: ([bt, bt, 'j', 's', 'o', 'n', '\n'] ++ r ++ ['\n', bt, bt] ++ [bt]) := by
    simp [fenceWrap]
  unfold pyStrip
  rw [hshape]
  have h1 : trimLeft (bt :: ([bt, bt, 'j', 's', 'o', 'n', '\n'] ++ r ++ ['\n', bt, bt] ++ [bt])) =
      bt :: ([bt, bt, 'j', 's', 'o', 'n', '\n'] ++ r ++ ['\n', bt, bt] ++ [bt]) := by
    simp [trimLeft, List.dropWhile_cons, hbt]
  rw [h1]
  unfold trimRight
  rw [show bt :: ([bt, bt, 'j', 's', 'o', 'n', '\n'] ++ r ++ ['\n', bt, bt] ++ [bt]) =
      (bt :: ([bt, bt, 'j', 's', 'o', 'n', '\n'] ++ r ++ ['\n', bt, bt])) ++ [bt] from by simp]
  rw [List.reverse_append]
  simp only [List.reverse_cons, List.reverse_nil, List.nil_append, List.singleton_append,
    List.dropWhile_cons, hbt]
  rw [if_neg (by simp)]
  simp

/-- The fence-stripping step of the qualitative path recovers the bare response
from its fence-wrapped form (for a backtick-free, already-stripped response). -/
theorem qualJsonText_fenceWrap (r : List Char) (hr : ∀ c ∈ r, c ≠ bt)
    (hstrip : pyStrip r = r) : qualJsonText (fenceWrap r) = some r := by
  obtain ⟨hTL, hTR⟩ := trim_eq_of_pyStrip r hstrip
  unfold qualJsonText
  rw [pyStrip_fenceWrap]
  have hfence : startsWithFence (fenceWrap r) = true := by
    simp [fenceWrap, startsWithFence, List.take_succ_cons]
  rw [if_pos hfence, splitFence_fenceWrap r hr]
  have hjson : startsWithJson ('j' :: 's' :: 'o' :: 'n' :: '\n' :: (r ++ ['\n'])) = true := by
    simp [startsWithJson, List.take_succ_cons]
  simp only [List.get?, hjson, if_true, List.drop_succ_cons, List.drop_zero]
  rw [pyStrip_newline_wrap r hTL hTR]

/-- A backtick-free, already-stripped response passes through the fence check
unchanged. -/
theorem qualJsonText_plain (r : List Char) (hr : ∀ c ∈ r, c ≠ bt)
    (hstrip : pyStrip r = r) : qualJsonText r = some r := by
  unfold qualJsonText
  simp only [hstrip, startsWithFence_false r hr, Bool.false_eq_true, if_false]

/-- Claim C8 counterexample: the numeric parser does not strip the Markdown
fence — the fence-wrapped well-formed response `{"annual": null, "quarterly": 7}`
parses (through the regex fallback) to annual 7, quarterly null, while the same
response without the fence parses to annual null, quarterly 7. -/
theorem c8_counterexample :
    parseNumericResponse
        (fenceWrap ("\x7b\"annual\": null, \"quarterly\": 7\x7d".toList)) "10-K" ≠
      parseNumericResponse ("\x7b\"annual\": null, \"quarterly\": 7\x7d".toList) "10-K" := by
  decide

/-- Claim C8 (amended): only the qualitative path strips a Markdown code fence:
there a fence-wrapped (backtick-free, stripped) well-formed response parses to
exactly the same result as the bare response; the numeric parser performs no
fence stripping, so a fence-wrapped structured response fails the JSON parse and
is handled by the regex fallback instead. -/
theorem c8_fence_stripping_amended :
    (∀ r : List Char, (∀ c ∈ r, c ≠ bt) → pyStrip r = r →
      parseQualitative (fenceWrap r) = parseQualitative r) ∧
    parseNumericResponse
        (fenceWrap ("\x7b\"annual\": null, \"quarterly\": 7\x7d".toList)) "10-K" =
      some (numericFallback
        (fenceWrap ("\x7b\"annual\": null, \"quarterly\": 7\x7d".toList)) "10-K") := by
  constructor
  · intro r hr hstrip
    unfold parseQualitative
    rw [qualJsonText_fenceWrap r hr hstrip, qualJsonText_plain r hr hstrip]
  · decide

/-- Claim C8 witness: the amended qualitative equality at a concrete response. -/
theorem c8_fence_stripping_witness :
    parseQualitative (fenceWrap ("\x7b\"score\": 3, \"evidence\": \"ok\"\x7d".toList)) =
      parseQualitative ("\x7b\"score\": 3, \"evidence\": \"ok\"\x7d".toList) :=
  c8_fence_stripping_amended.1 ("\x7b\"score\": 3, \"evidence\": \"ok\"\x7d".toList)
    (by decide) (by decide)

end Anyfactor
